import Mathlib

/-!
# Verification of the scrapper crawl engine and browser pool

Shallow embedding of the core of the `scrapper` repository:

* `src/crawler.py` — `WebCrawler`: queue-based (FIFO) crawl engine with
  domain restriction, per-domain page caps, URL exclusion patterns and a
  visited set of raw URL strings.
* `src/app/services/scraping_service.py` — `WebCrawler`: recursive crawl
  engine with a global page cap (`max_pages`), canonicalized visited set
  and exact-domain restriction, driven by `ScrapingService.scrape_with_selenium`.
* `src/app/core/browser.py` — `BrowserPool`: bounded pool of browser
  instances with borrow/release and an idle-eviction sweep.

Modelling conventions:

* The browser/driver is modelled as a function `String → Option _Page`
  giving, for each URL, the loaded page (title, description, body text,
  anchor hrefs, element counts), or `none` when loading or extraction
  fails (`TimeoutException`, `WebDriverException`, generic exception).
  Anchor hrefs are modelled after resolution to absolute form (Selenium's
  `get_attribute("href")` returns the resolved absolute URL, which is a
  fixed point of `urljoin`).
* `urllib.parse.urlparse` is modelled for the URL shapes the crawler
  meets: absolute `scheme://netloc/path?query` URLs and scheme-less
  relative references (whose `netloc` is empty, which is all the code
  inspects for them). Fragments and userinfo are not modelled; no URL in
  this development contains them.
* `re.search(pattern, url)` (Python's regex engine, external to the
  repository) is an abstract parameter `reS : String → String → Bool` of
  the queue-based evaluator; concrete instances use literal substring
  patterns, where `re.search` coincides with substring containment.
* Python sets and dicts are modelled as lists (membership only) and
  association lists (first-match lookup / in-place update).
* Timestamps (`time.time()`) are `Nat`-valued instants passed explicitly.
* Loops whose iteration count is data-dependent take explicit fuel; all
  invariants are proved for every fuel amount, hence hold at every point
  of the traversal.
-/

namespace Scrapper

/-! ## String helpers (List Char based, kernel-reducible) -/

/-- `s` starts with `p` (Python `str.startswith`). -/
def strStarts (s p : String) : Bool := p.toList.isPrefixOf s.toList

/-- `s` ends with `p` (Python `str.endswith`). -/
def strEnds (s p : String) : Bool := p.toList.isSuffixOf s.toList

/-- `needle` occurs as a contiguous sublist of `hay`. -/
def subListOf (needle : List Char) : List Char → Bool
  | [] => needle.isEmpty
  | c :: t => needle.isPrefixOf (c :: t) || subListOf needle t

/-- `sub` occurs inside `s` (Python `sub in s`). -/
def strContains (s sub : String) : Bool := subListOf sub.toList s.toList

/-! ## `urllib.parse.urlparse` model -/

/-- Split a character list at the first occurrence of `"://"`, returning
the part before and the part after, or `none` if it does not occur. -/
def breakSchemeSep : List Char → Option (List Char × List Char)
  | [] => none
  | c :: cs =>
    if [':', '/', '/'].isPrefixOf (c :: cs) then some ([], cs.drop 2)
    else
      match breakSchemeSep cs with
      | some (pre, post) => some (c :: pre, post)
      | none => none

/-- Split off the query string at the first `'?'`. -/
def splitQuery (l : List Char) : List Char × List Char :=
  let p := l.takeWhile (fun c => c ≠ '?')
  match l.drop p.length with
  | [] => (p, [])
  | _ :: t => (p, t)

/-- Result of `urllib.parse.urlparse` (the components the code reads). -/
structure UrlParts where
  scheme : String
  netloc : String
  path : String
  query : String
deriving Repr, DecidableEq

/-- Model of `urllib.parse.urlparse` for the URL shapes this code meets:
`scheme://netloc/path?query` URLs, and scheme-less references, whose
`netloc` is empty (the only component the code inspects for them). -/
def urlparse (url : String) : UrlParts :=
  match breakSchemeSep url.toList with
  | none =>
    let (p, q) := splitQuery url.toList
    ⟨"", "", String.mk p, String.mk q⟩
  | some (sch, rest) =>
    let netl := rest.takeWhile (fun c => !(c = '/' || c = '?'))
    let (p, q) := splitQuery (rest.drop netl.length)
    ⟨String.mk sch, String.mk netl, String.mk p, String.mk q⟩

/-- `WebCrawler.get_domain` / `ScrapingService._get_domain`:
`urlparse(url).netloc`. -/
def get_domain (url : String) : String := (urlparse url).netloc

/-- Normalization used for canonical (query-stripped) URLs:
`f"{parsed.scheme}://{parsed.netloc}{parsed.path}"`
(`WebCrawler.should_follow_url` in `src/crawler.py` and
`WebCrawler._normalize_url` in `scraping_service.py`). -/
def normalize_url (url : String) : String :=
  let p := urlparse url
  p.scheme ++ "://" ++ p.netloc ++ p.path

/-! ## Association-list model of Python dicts (`pages_crawled_per_domain`) -/

/-- `d[k]` lookup returning `none` when `k not in d`. -/
def dlookup : List (String × Nat) → String → Option Nat
  | [], _ => none
  | (k, v) :: t, key => if k = key then some v else dlookup t key

/-- `d[k] = v`: replace the first binding of `k`, or append a new one. -/
def dset : List (String × Nat) → String → Nat → List (String × Nat)
  | [], key, v => [(key, v)]
  | (k, w) :: t, key, v => if k = key then (key, v) :: t else (k, w) :: dset t key v

/-- `d[k] += 1` (the code only does this when `k` is present). -/
def dbump : List (String × Nat) → String → List (String × Nat)
  | [], _ => []
  | (k, w) :: t, key => if k = key then (k, w + 1) :: t else (k, w) :: dbump t key

/-! ## Queue-based crawl engine (`src/crawler.py`, class `WebCrawler`)

Its caller (`app_simple.py`, `scrape_website_with_selenium`) builds the
settings dict from the request's crawl options; notably it passes the
request's `max_pages` ("Maximum number of pages to crawl in total") as
the crawler's `max_pages_per_domain` setting — `src/crawler.py` itself
reads no global `max_pages` setting at all. -/

/-- Settings dict consumed by `src/crawler.py` (`settings.get` defaults). -/
structure QSettings where
  max_depth : Nat := 1
  max_pages_per_domain : Nat := 10
  follow_external_links : Bool := false
  restrict_to_domains : List String := []
  ignore_query_strings : Bool := true
  exclude_url_patterns : List String := []
deriving Repr

/-- A loaded page as the Selenium driver exposes it to `crawl_page`:
title, meta description, body text, the (absolutized) `href` values of
its anchor elements, and the element counts the record stores. -/
structure QPage where
  title : String := ""
  description : String := ""
  content : String := ""
  links : List String := []
  images_count : Nat := 0
  forms_count : Nat := 0
  scripts_count : Nat := 0
deriving Repr

/-- The driver/network: for each URL either the loaded page, or `none`
when navigation or extraction raises (`TimeoutException`,
`WebDriverException`, or any other exception in `crawl_page`). -/
def QWeb := String → Option QPage

/-- `page_data` dict built by `WebCrawler.crawl_page`. -/
structure PageRecord where
  url : String
  title : String
  description : String
  content : String
  links_count : Nat
  images_count : Nat
  forms_count : Nat
  scripts_count : Nat
  depth : Nat
  domain : String
deriving Repr, DecidableEq

/-- Mutable crawl state of `src/crawler.py`'s `WebCrawler`:
`visited_urls` (a set of raw URL strings), `url_queue` ([url, depth]
pairs), `results`, `pages_crawled_per_domain`. -/
structure QState where
  visited : List String
  queue : List (String × Nat)
  results : List PageRecord
  ppd : List (String × Nat)
deriving Repr

/-- `WebCrawler.should_follow_url` (`src/crawler.py` lines 47–128).
`reS p u` models `re.search(p, u) is not None`. -/
def should_follow_url (reS : String → String → Bool) (S : QSettings)
    (visited : List String) (ppd : List (String × Nat))
    (base_url url : String) : Bool :=
  -- Skip empty or javascript URLs
  if url = "" || strStarts url "javascript:" || url = "#" then false
  else
    let domain := get_domain url
    -- Relative URLs (empty domain) are always followed
    if domain = "" then true
    else
      let base_domain := get_domain base_url
      let restrict_domains := S.restrict_to_domains
      -- `domain in restrict_domains` or subdomain loop
      let is_allowed_domain :=
        restrict_domains.contains domain ||
          restrict_domains.any (fun a => strEnds domain ("." ++ a) || domain = a)
      if (!restrict_domains.isEmpty) && !is_allowed_domain && !S.follow_external_links then
        false
      else if domain ≠ base_domain && !S.follow_external_links then
        false
      else if domain ≠ base_domain &&
          (match dlookup ppd domain with
           | some c => decide (c ≥ S.max_pages_per_domain)
           | none => false) then
        false
      else if S.exclude_url_patterns.any (fun p => reS p url) then
        false
      else if S.ignore_query_strings && visited.contains (normalize_url url) then
        false
      else if visited.contains url then
        false
      else
        true

/-- `WebCrawler.extract_links`: each anchor's (absolute) href that
passes `should_follow_url`, in page order. -/
def extract_links (reS : String → String → Bool) (S : QSettings)
    (visited : List String) (ppd : List (String × Nat))
    (url : String) (pg : QPage) : List String :=
  pg.links.filter (fun l => should_follow_url reS S visited ppd url l)

/-- Success path of `WebCrawler.crawl_page` after the depth / visited /
per-domain guards (source lines 185–263): mark visited, load the page,
bump the domain counter, enqueue fresh links when below `max_depth`, and
return the page record. -/
def crawl_page_body (web : QWeb) (reS : String → String → Bool) (S : QSettings)
    (st : QState) (url : String) (depth : Nat) (domain : String) :
    QState × Option PageRecord :=
  -- Mark as visited to prevent loops (before the try-block)
  let st1 : QState := { st with visited := url :: st.visited }
  match web url with
  | none => (st1, none)   -- Timeout / WebDriver / generic exception: skip
  | some pg =>
    -- Increment counter for this domain
    let st2 : QState := { st1 with ppd := dbump st1.ppd domain }
    -- If depth is not at max, extract links for further crawling
    let st3 : QState :=
      if depth < S.max_depth then
        let links := extract_links reS S st2.visited st2.ppd url pg
        { st2 with
          queue := st2.queue ++
            (links.filter (fun l => !st2.visited.contains l)).map (fun l => (l, depth + 1)) }
      else st2
    (st3, some ⟨url, pg.title, pg.description, pg.content, pg.links.length,
                pg.images_count, pg.forms_count, pg.scripts_count, depth, domain⟩)

/-- `WebCrawler.crawl_page` (`src/crawler.py` lines 157–263). -/
def crawl_page (web : QWeb) (reS : String → String → Bool) (S : QSettings)
    (st : QState) (url : String) (depth : Nat) : QState × Option PageRecord :=
  -- Skip if we've reached max depth
  if depth > S.max_depth then (st, none)
  -- Skip if we've already visited this URL
  else if st.visited.contains url then (st, none)
  else
    let domain := get_domain url
    match dlookup st.ppd domain with
    | some c =>
      -- Skip if we've reached the maximum pages for this domain
      if c ≥ S.max_pages_per_domain then (st, none)
      else crawl_page_body web reS S st url depth domain
    | none =>
      crawl_page_body web reS S { st with ppd := dset st.ppd domain 0 } url depth domain

/-- One iteration of `WebCrawler.crawl`'s while-loop, after popping
`(url, depth)` off the front of the queue (`rest` is the remainder). -/
def qIter (web : QWeb) (reS : String → String → Bool) (S : QSettings)
    (st : QState) (url : String) (depth : Nat) (rest : List (String × Nat)) : QState :=
  let st1 : QState := { st with queue := rest }
  -- Skip if we've already visited this URL
  if st1.visited.contains url then st1
  else
    match crawl_page web reS S st1 url depth with
    | (st2, some p) => { st2 with results := st2.results ++ [p] }
    | (st2, none) => st2

/-- The while-loop of `WebCrawler.crawl` (lines 282–296), with explicit
fuel bounding the number of iterations. -/
def qCrawlLoop (web : QWeb) (reS : String → String → Bool) (S : QSettings) :
    Nat → QState → QState
  | 0, st => st
  | fuel + 1, st =>
    match st.queue with
    | [] => st
    | (url, depth) :: rest => qCrawlLoop web reS S fuel (qIter web reS S st url depth rest)

/-- `WebCrawler.crawl` (`src/crawler.py` lines 265–298): reset the
state, seed the queue with `[start_url, 0]`, run the loop, return
`self.results`. -/
def qCrawl (web : QWeb) (reS : String → String → Bool) (S : QSettings)
    (fuel : Nat) (start_url : String) : List PageRecord :=
  (qCrawlLoop web reS S fuel ⟨[], [(start_url, 0)], [], []⟩).results

/-! ## Recursive crawl engine
(`src/app/services/scraping_service.py`, class `WebCrawler`)

`ScrapingService.scrape_with_selenium` constructs it with
`restrict_to_domains = [self._get_domain(url)] if restrict_to_domain else []`
and runs `crawler.crawl(url)`, which starts `_crawl_recursive(url, depth=1)`. -/

/-- Settings dict consumed by the recursive `WebCrawler.__init__`. -/
structure RSettings where
  max_depth : Nat := 1
  max_pages : Nat := 10
  follow_external_links : Bool := false
  restrict_to_domains : List String := []
  ignore_query_strings : Bool := true
  exclude_url_patterns : List String := []
deriving Repr

/-- A loaded page as this crawler's `_crawl_page`/`_extract_links` see
it: title, description, body text, raw anchor hrefs. -/
structure RPage where
  title : String := ""
  description : String := ""
  content : String := ""
  links : List String := []
deriving Repr

/-- The driver/network for the recursive crawler; `none` models any
exception inside `_crawl_page` (navigation or extraction failure). -/
def RWeb := String → Option RPage

/-- Dict returned by `WebCrawler._crawl_page`. -/
structure RPageData where
  url : String
  title : String
  description : String
  content : String
deriving Repr, DecidableEq

/-- Per-crawl state of the recursive `WebCrawler`: `visited_urls`
(normalized when `ignore_query_strings`) and `pages_data`. -/
structure RState where
  visited : List String
  pages_data : List RPageData
deriving Repr

/-- `WebCrawler._extract_links`: hrefs of all anchors, keeping only
those starting with `http://` or `https://`. -/
def rExtractLinks (pg : RPage) : List String :=
  pg.links.filter (fun h => strStarts h "http://" || strStarts h "https://")

/-- `WebCrawler._should_follow_url`
(`src/app/services/scraping_service.py` lines 494–522). -/
def rShouldFollow (S : RSettings) (base_url url : String) : Bool :=
  -- Check for excluded patterns: `any(pattern in url for pattern in ...)`
  if S.exclude_url_patterns.any (fun p => strContains url p) then false
  -- If no domain restrictions, follow all URLs
  else if S.restrict_to_domains.isEmpty then true
  else
    let is_same_domain := get_domain base_url = get_domain url
    -- If following external links is disabled, only follow same-domain links
    if !S.follow_external_links && !is_same_domain then false
    -- Check if URL domain is in the restricted domains list
    else S.restrict_to_domains.contains (get_domain url)

/-- The key under which a URL enters the visited set:
`self._normalize_url(url) if self.ignore_query_strings else url`. -/
def rKey (S : RSettings) (url : String) : String :=
  if S.ignore_query_strings then normalize_url url else url

/-- `WebCrawler._crawl_recursive` (`scraping_service.py` lines 371–419),
fuel-indexed: fuel is consumed once per recursion (depth) level, so
`fuel = max_depth + 1` reproduces the Python recursion exactly. The
inner `for link in filtered_links: if len < max_pages: recurse else
break` is a fold whose step re-checks the bound at each link; since
`pages_data` only ever grows, re-checking is equivalent to `break`. -/
def rCrawlRec (web : RWeb) (S : RSettings) : Nat → RState → String → Nat → RState
  | 0, st, _, _ => st
  | fuel + 1, st, url, depth =>
    -- Check termination conditions
    if depth > S.max_depth then st
    else if st.pages_data.length ≥ S.max_pages then st
    else
      let normalized_url := rKey S url
      -- Skip if already visited
      if st.visited.contains normalized_url then st
      else
        -- Mark as visited
        let st1 : RState := ⟨normalized_url :: st.visited, st.pages_data⟩
        -- _crawl_page: navigate, wait, extract; None on any exception
        match web url with
        | none => st1
        | some pg =>
          let st2 : RState :=
            ⟨st1.visited, st1.pages_data ++ [⟨url, pg.title, pg.description, pg.content⟩]⟩
          -- Extract links and crawl them if not at max depth
          if depth < S.max_depth ∧ st2.pages_data.length < S.max_pages then
            let filtered_links :=
              (rExtractLinks pg).filter (fun l => rShouldFollow S url l)
            filtered_links.foldl
              (fun s l =>
                if s.pages_data.length < S.max_pages then
                  rCrawlRec web S fuel s l (depth + 1)
                else s)
              st2
          else st2

/-- `WebCrawler.crawl` (`scraping_service.py` lines 352–369): clear the
state, run `_crawl_recursive(start_url, depth=1)`, return `pages_data`. -/
def rCrawl (web : RWeb) (S : RSettings) (start_url : String) : List RPageData :=
  (rCrawlRec web S (S.max_depth + 1) ⟨[], []⟩ start_url 1).pages_data

/-! ## Browser pool (`src/app/core/browser.py`)

`time.time()` instants are explicit `Nat` arguments. A driver handle is
a `Nat` id; `closed` records every id on which `driver.quit()` has been
called. Browser creation is modelled as succeeding (a launch failure
raises out of `get_browser` before any state change). -/

/-- `BrowserInstance`: driver handle plus liveness metadata. -/
structure BrowserInstance where
  driver : Nat
  last_used : Nat
  in_use : Bool
deriving Repr, DecidableEq

/-- State owned by `BrowserPool`: the pool list, the set of quit driver
handles, and a supply of fresh handles. -/
structure PoolState where
  pool : List BrowserInstance
  closed : List Nat
  nextId : Nat
deriving Repr

/-- Pool-relevant application settings. -/
structure PoolSettings where
  BROWSER_POOL_SIZE : Nat
  BROWSER_MAX_IDLE_TIME : Nat
deriving Repr

/-- Initial pool state (`self.pool = []`). -/
def poolInit : PoolState := ⟨[], [], 0⟩

/-- The scan `for instance in self.pool: if not instance.in_use: ...` in
`get_browser`: mark the first available instance as in use, refresh its
`last_used`, and return the updated pool plus that instance. -/
def markFirstAvailable (now : Nat) : List BrowserInstance →
    Option (List BrowserInstance × BrowserInstance)
  | [] => none
  | i :: t =>
    if !i.in_use then
      let i' : BrowserInstance := { i with in_use := true, last_used := now }
      some (i' :: t, i')
    else
      match markFirstAvailable now t with
      | some (t', b) => some (i :: t', b)
      | none => none

/-- The borrow half of `BrowserPool.get_browser` (lines 136–161): reuse
the first available instance; else create and append a new one if the
pool is below `BROWSER_POOL_SIZE`; else create a temporary browser that
is not added to the pool. Returns the new state and the borrowed
instance. -/
def get_browser_acquire (S : PoolSettings) (st : PoolState) (now : Nat) :
    PoolState × BrowserInstance :=
  match markFirstAvailable now st.pool with
  | some (pool', inst) => ({ st with pool := pool' }, inst)
  | none =>
    if st.pool.length < S.BROWSER_POOL_SIZE then
      -- BrowserInstance(driver): last_used = time.time(), then in_use = True
      let inst : BrowserInstance := ⟨st.nextId, now, true⟩
      ({ st with pool := st.pool ++ [inst], nextId := st.nextId + 1 }, inst)
    else
      -- "Browser pool full, creating temporary browser"
      let inst : BrowserInstance := ⟨st.nextId, now, true⟩
      ({ st with nextId := st.nextId + 1 }, inst)

/-- The release half of `get_browser` (the `finally` block, lines
166–171): set `in_use = False` and refresh `last_used` on the borrowed
instance. The borrowed instance is identified by its driver handle;
if it is not in the pool (a temporary instance) the pool is untouched
and, notably, `driver.quit()` is never called. -/
def release_browser (st : PoolState) (driverId : Nat) (now : Nat) : PoolState :=
  { st with
    pool := st.pool.map (fun i =>
      if i.driver = driverId then { i with in_use := false, last_used := now } else i) }

/-- Eviction predicate of the cleanup thread:
`not instance.in_use and current_time - instance.last_used > BROWSER_MAX_IDLE_TIME`. -/
def evictable (S : PoolSettings) (now : Nat) (i : BrowserInstance) : Bool :=
  !i.in_use && decide (now - i.last_used > S.BROWSER_MAX_IDLE_TIME)

/-- One pass of the cleanup thread's loop body
(`BrowserPool._start_cleanup_thread`, lines 180–198): collect
`browsers_to_remove`, quit each, and `self.pool.remove(instance)` each
(removal of the first structurally equal entry, matching CPython's
identity-based `list.remove` since handles are unique). -/
def cleanup_sweep (S : PoolSettings) (st : PoolState) (now : Nat) : PoolState :=
  let browsers_to_remove := st.pool.filter (evictable S now)
  { st with
    pool := browsers_to_remove.foldl (fun p i => p.erase i) st.pool,
    closed := st.closed ++ browsers_to_remove.map (fun i => i.driver) }

/-- An operation on the pool's mutual-exclusion domain. -/
inductive PoolOp where
  | borrowOp (now : Nat)
  | releaseOp (driverId now : Nat)
  | sweepOp (now : Nat)

/-- Apply one pool operation (dropping the borrow's return value). -/
def poolStep (S : PoolSettings) (st : PoolState) : PoolOp → PoolState
  | .borrowOp now => (get_browser_acquire S st now).1
  | .releaseOp driverId now => release_browser st driverId now
  | .sweepOp now => cleanup_sweep S st now

/-- Run a sequence of borrow/release/sweep operations from a state. -/
def runPool (S : PoolSettings) (st : PoolState) (ops : List PoolOp) : PoolState :=
  ops.foldl (poolStep S) st

/-! ## Concrete instances used in counterexamples and witnesses -/

/-- `reSub p s` models `re.search(p, s)` for literal (metacharacter-free)
patterns, where regex search is substring containment. -/
def reSub (p s : String) : Bool := strContains s p

/-- Site for C1: `http://a/` links to the external page `http://b/`. -/
def webC1 : QWeb := fun u =>
  if u = "http://a/" then some { links := ["http://b/"] }
  else if u = "http://b/" then some {}
  else none

/-- Crawl options for C1 as `app_simple.py` builds them from a request
with `max_pages = 1` (total page budget), `follow_external_links = true`:
`max_pages` is forwarded as the `max_pages_per_domain` setting. -/
def SC1 : QSettings :=
  { max_depth := 1, max_pages_per_domain := 1, follow_external_links := true }

/-- Site for C2: the start page links to the same path under two
different query strings, both loading fine. -/
def webC2 : QWeb := fun u =>
  if u = "http://s/" then some { links := ["http://s/p?q=1", "http://s/p?q=2"] }
  else if u = "http://s/p?q=1" then some {}
  else if u = "http://s/p?q=2" then some {}
  else none

/-- Default-ish settings for C2 (`ignore_query_strings = true`). -/
def SC2 : QSettings := { max_depth := 1 }

/-- Site for C5/C9 recursive runs: `s → a, b`; `a → c`. -/
def webC5 : RWeb := fun u =>
  if u = "http://s/" then some { links := ["http://s/a", "http://s/b"] }
  else if u = "http://s/a" then some { links := ["http://s/c"] }
  else if u = "http://s/b" then some {}
  else if u = "http://s/c" then some {}
  else none

/-- Recursive-crawler settings for C5. -/
def SC5 : RSettings := { max_depth := 3, max_pages := 10 }

/-- Depth at which each page of `webC5` is fetched in the C5 run (each
page is reachable along exactly one link path, so production depth is
the unique link distance from the start, counted from 1). -/
def prodDepthC5 (u : String) : Nat :=
  if u = "http://s/" then 1
  else if u = "http://s/a" then 2
  else if u = "http://s/b" then 2
  else if u = "http://s/c" then 3
  else 0

/-- Recursive-crawler settings for the C3 witness: restriction list as
`scrape_with_selenium` builds it for start domain `s`. -/
def SC3 : RSettings := { max_depth := 2, restrict_to_domains := ["s"] }

/-- Site for the C3 counterexample: the start page on `example.com`
links to a page on the foreign domain `other.com`. -/
def webC3x : QWeb := fun u =>
  if u = "http://example.com/" then some { links := ["http://other.com/x"] }
  else if u = "http://other.com/x" then some {}
  else none

/-- Queue-engine settings for the C3 counterexample, as `app_simple.py`
wires a request with `restrict_to_domain = true` (the start URL's netloc
becomes the restriction list) and `follow_external_links = true`. -/
def SC3x : QSettings :=
  { max_depth := 1, follow_external_links := true,
    restrict_to_domains := ["example.com"] }

/-- Site for C9: the start page links to `a` (whose load fails) and `b`. -/
def webC9 : QWeb := fun u =>
  if u = "http://s/" then some { links := ["http://s/a", "http://s/b"] }
  else if u = "http://s/b" then some {}
  else none

/-- Settings for the C9 run. -/
def SC9 : QSettings := { max_depth := 1 }

/-- Settings for C4: non-empty restriction list, external following on. -/
def SC4 : QSettings :=
  { restrict_to_domains := ["example.com"], follow_external_links := true }

/-- Settings for the C4 witness: same list, external following off. -/
def SC4w : QSettings := { restrict_to_domains := ["example.com"] }

/-- Settings for C8: one exclusion pattern. -/
def SC8 : QSettings := { exclude_url_patterns := ["admin"] }

/-- Pool settings for the C6 trace: capacity 1. -/
def poolSett1 : PoolSettings := ⟨1, 60⟩

/-- C6 trace, step 1: first borrow at t=0 creates pooled instance 0. -/
def poolTrace1 : PoolState × BrowserInstance := get_browser_acquire poolSett1 poolInit 0

/-- C6 trace, step 2: second borrow at t=1 while instance 0 is busy —
the pool is at capacity, so a temporary instance is created. -/
def poolTrace2 : PoolState × BrowserInstance := get_browser_acquire poolSett1 poolTrace1.1 1

/-- C6 trace, step 3: the temporary instance is released at t=2. -/
def poolTrace3 : PoolState := release_browser poolTrace2.1 poolTrace2.2.driver 2

/-! ## Helper lemmas: queue-based engine -/

/-- Characterization of one iteration of the crawl loop: it either skips
the popped URL (results untouched, at most the URL added to the visited
set) or records exactly one page for it — in which case the page loaded,
the URL was unvisited, its depth is within bounds, it is appended at the
end of the results with that depth, and all newly enqueued entries sit
at `depth + 1` at the back of the queue. -/
lemma qIter_spec (web : QWeb) (reS : String → String → Bool) (S : QSettings)
    (st : QState) (url : String) (depth : Nat) (rest : List (String × Nat)) :
    (∃ (vis : List String) (ppd : List (String × Nat)),
        (vis = st.visited ∨ vis = url :: st.visited) ∧
        qIter web reS S st url depth rest = ⟨vis, rest, st.results, ppd⟩) ∨
    (∃ (pg : QPage) (ppd : List (String × Nat)) (ls : List String),
        web url = some pg ∧ url ∉ st.visited ∧ depth ≤ S.max_depth ∧
        qIter web reS S st url depth rest =
          ⟨url :: st.visited, rest ++ ls.map (fun l => (l, depth + 1)),
           st.results ++ [⟨url, pg.title, pg.description, pg.content, pg.links.length,
                           pg.images_count, pg.forms_count, pg.scripts_count, depth,
                           get_domain url⟩], ppd⟩) := by
  by_cases h1 : url ∈ st.visited
  · exact Or.inl ⟨st.visited, st.ppd, Or.inl rfl, by simp [qIter, h1]⟩
  · by_cases h2 : depth > S.max_depth
    · exact Or.inl ⟨st.visited, st.ppd, Or.inl rfl, by simp [qIter, crawl_page, h1, h2]⟩
    · have h2' : depth ≤ S.max_depth := Nat.le_of_not_lt h2
      cases hd : dlookup st.ppd (get_domain url) with
      | some c =>
        by_cases h3 : c ≥ S.max_pages_per_domain
        · exact Or.inl ⟨st.visited, st.ppd, Or.inl rfl,
            by simp [qIter, crawl_page, h1, h2, hd, h3]⟩
        · cases hw : web url with
          | none =>
            exact Or.inl ⟨url :: st.visited, st.ppd, Or.inr rfl,
              by simp [qIter, crawl_page, crawl_page_body, h1, h2, hd, h3, hw]⟩
          | some pg =>
            by_cases h4 : depth < S.max_depth
            · exact Or.inr ⟨pg, dbump st.ppd (get_domain url),
                (extract_links reS S (url :: st.visited) (dbump st.ppd (get_domain url))
                    url pg).filter (fun l => !(url :: st.visited).contains l),
                rfl, h1, h2',
                by simp [qIter, crawl_page, crawl_page_body, h1, h2, hd, h3, hw, h4]⟩
            · exact Or.inr ⟨pg, dbump st.ppd (get_domain url), [], rfl, h1, h2',
                by simp [qIter, crawl_page, crawl_page_body, h1, h2, hd, h3, hw, h4]⟩
      | none =>
        cases hw : web url with
        | none =>
          exact Or.inl ⟨url :: st.visited, dset st.ppd (get_domain url) 0, Or.inr rfl,
            by simp [qIter, crawl_page, crawl_page_body, h1, h2, hd, hw]⟩
        | some pg =>
          by_cases h4 : depth < S.max_depth
          · exact Or.inr ⟨pg, dbump (dset st.ppd (get_domain url) 0) (get_domain url),
              (extract_links reS S (url :: st.visited)
                  (dbump (dset st.ppd (get_domain url) 0) (get_domain url))
                  url pg).filter (fun l => !(url :: st.visited).contains l),
              rfl, h1, h2',
              by simp [qIter, crawl_page, crawl_page_body, h1, h2, hd, hw, h4]⟩
          · exact Or.inr ⟨pg, dbump (dset st.ppd (get_domain url) 0) (get_domain url), [],
              rfl, h1, h2',
              by simp [qIter, crawl_page, crawl_page_body, h1, h2, hd, hw, h4]⟩

/-- Invariant principle for the crawl loop: any state predicate
preserved by a single iteration holds at every point of the traversal. -/
lemma qLoop_inv (web : QWeb) (reS : String → String → Bool) (S : QSettings)
    (P : QState → Prop)
    (h : ∀ st url depth rest, st.queue = (url, depth) :: rest → P st →
      P (qIter web reS S st url depth rest)) :
    ∀ fuel st, P st → P (qCrawlLoop web reS S fuel st) := by
  intro fuel
  induction fuel with
  | zero => intro st hP; simpa [qCrawlLoop] using hP
  | succ f ih =>
    intro st hP
    rcases hq : st.queue with _ | ⟨⟨u, d⟩, rest⟩
    · simpa [qCrawlLoop, hq] using hP
    · have : qCrawlLoop web reS S (f + 1) st =
          qCrawlLoop web reS S f (qIter web reS S st u d rest) := by
        simp [qCrawlLoop, hq]
      rw [this]
      exact ih _ (h st u d rest hq hP)

/-- A constant list is sorted. -/
lemma sorted_const_map {α : Type _} (k : Nat) :
    ∀ ls : List α, List.Sorted (· ≤ ·) (ls.map (fun _ => k)) := by
  intro ls
  induction ls with
  | nil => simp
  | cons a t ih =>
    refine List.sorted_cons.mpr ⟨?_, ih⟩
    intro b hb
    rcases List.mem_map.mp hb with ⟨x, _, rfl⟩
    exact le_refl k

/-- BFS invariant of the queue-based crawl loop: queue depths are
non-decreasing and spread over at most two consecutive levels, recorded
depths are non-decreasing, and every recorded depth is at most every
queued depth. -/
lemma qcrawl_bfs_inv (web : QWeb) (reS : String → String → Bool) (S : QSettings) :
    ∀ (fuel : Nat) (st : QState),
      (List.Sorted (· ≤ ·) (st.queue.map Prod.snd) ∧
        List.Sorted (· ≤ ·) (st.results.map PageRecord.depth) ∧
        (∀ r ∈ st.results, ∀ q ∈ st.queue, r.depth ≤ q.2) ∧
        (∀ q ∈ st.queue, ∀ q' ∈ st.queue, q'.2 ≤ q.2 + 1)) →
      (List.Sorted (· ≤ ·) ((qCrawlLoop web reS S fuel st).queue.map Prod.snd) ∧
        List.Sorted (· ≤ ·) ((qCrawlLoop web reS S fuel st).results.map PageRecord.depth) ∧
        (∀ r ∈ (qCrawlLoop web reS S fuel st).results,
          ∀ q ∈ (qCrawlLoop web reS S fuel st).queue, r.depth ≤ q.2) ∧
        (∀ q ∈ (qCrawlLoop web reS S fuel st).queue,
          ∀ q' ∈ (qCrawlLoop web reS S fuel st).queue, q'.2 ≤ q.2 + 1)) := by
  intro fuel st
  refine qLoop_inv web reS S
    (fun s => List.Sorted (· ≤ ·) (s.queue.map Prod.snd) ∧
      List.Sorted (· ≤ ·) (s.results.map PageRecord.depth) ∧
      (∀ r ∈ s.results, ∀ q ∈ s.queue, r.depth ≤ q.2) ∧
      (∀ q ∈ s.queue, ∀ q' ∈ s.queue, q'.2 ≤ q.2 + 1)) ?_ fuel st
  rintro st u d rest hq ⟨hsq, hsr, hrq, hsp⟩
  have hmemd : (u, d) ∈ st.queue := by rw [hq]; exact List.mem_cons_self _ _
  have hrest : ∀ q ∈ rest, q ∈ st.queue := by
    intro q hqq; rw [hq]; exact List.mem_cons_of_mem _ hqq
  have hq' : st.queue.map Prod.snd = d :: rest.map Prod.snd := by rw [hq]; rfl
  have hsq' : List.Sorted (· ≤ ·) (d :: rest.map Prod.snd) := hq' ▸ hsq
  have hrest_sorted : List.Sorted (· ≤ ·) (rest.map Prod.snd) :=
    (List.sorted_cons.mp hsq').2
  have hdle : ∀ q ∈ rest, d ≤ q.2 := by
    intro q hqq
    exact (List.sorted_cons.mp hsq').1 q.2 (List.mem_map_of_mem Prod.snd hqq)
  have hspd : ∀ q ∈ rest, q.2 ≤ d + 1 := by
    intro q hqq
    exact hsp (u, d) hmemd q (hrest q hqq)
  rcases qIter_spec web reS S st u d rest with
    ⟨vis, ppd, _, he⟩ | ⟨pg, ppd, ls, _, _, _, he⟩
  · rw [he]
    refine ⟨hrest_sorted, hsr, ?_, ?_⟩
    · intro r hr q hqq
      exact hrq r hr q (hrest q hqq)
    · intro q hqq q' hq'q
      exact hsp q (hrest q hqq) q' (hrest q' hq'q)
  · rw [he]
    have hnew : ∀ q ∈ ls.map (fun l => (l, d + 1)), q.2 = d + 1 := by
      intro q hqm
      rcases List.mem_map.mp hqm with ⟨l, _, rfl⟩
      rfl
    refine ⟨?_, ?_, ?_, ?_⟩
    · -- queue depths stay sorted
      rw [List.map_append]
      refine List.pairwise_append.mpr ⟨hrest_sorted, ?_, ?_⟩
      · rw [List.map_map]
        exact sorted_const_map (d + 1) ls
      · intro x hx y hy
        rcases List.mem_map.mp hx with ⟨q, hqq, rfl⟩
        rcases List.mem_map.mp hy with ⟨q', hq'q, rfl⟩
        rw [hnew q' hq'q]
        exact hspd q hqq
    · -- result depths stay sorted
      rw [List.map_append]
      refine List.pairwise_append.mpr ⟨hsr, List.sorted_singleton _, ?_⟩
      intro x hx y hy
      rcases List.mem_map.mp hx with ⟨r, hr, rfl⟩
      have hy' : y = d := by simpa using hy
      rw [hy']
      exact hrq r hr (u, d) hmemd
    · -- recorded depths below queued depths
      intro r hr q hqq
      rcases List.mem_append.mp hr with hr | hr
      · rcases List.mem_append.mp hqq with hqq | hqq
        · exact hrq r hr q (hrest q hqq)
        · rw [hnew q hqq]
          exact le_trans (hrq r hr (u, d) hmemd) (Nat.le_succ d)
      · have hrd : r.depth = d := by
          have : r = ⟨u, pg.title, pg.description, pg.content, pg.links.length,
              pg.images_count, pg.forms_count, pg.scripts_count, d, get_domain u⟩ := by
            simpa using hr
          rw [this]
        rw [hrd]
        rcases List.mem_append.mp hqq with hqq | hqq
        · exact hdle q hqq
        · rw [hnew q hqq]
          exact Nat.le_succ d
    · -- queue spread stays within one level
      intro q hqq q' hq'q
      rcases List.mem_append.mp hqq with hqq | hqq
      · rcases List.mem_append.mp hq'q with hq'q | hq'q
        · exact hsp q (hrest q hqq) q' (hrest q' hq'q)
        · rw [hnew q' hq'q]
          exact Nat.succ_le_succ (hdle q hqq)
      · rw [hnew q hqq]
        rcases List.mem_append.mp hq'q with hq'q | hq'q
        · exact le_trans (hspd q' hq'q) (Nat.le_succ _)
        · rw [hnew q' hq'q]
          exact Nat.le_succ _

/-! ## Helper lemmas: recursive engine -/

/-- A predicate preserved by every step of a fold holds of its result. -/
lemma foldl_preserve {α β : Type _} (P : β → Prop) (f : β → α → β) :
    ∀ (l : List α) (init : β), (∀ b a, a ∈ l → P b → P (f b a)) → P init →
      P (l.foldl f init) := by
  intro l
  induction l with
  | nil => intro init _ h0; simpa using h0
  | cons a t ih =>
    intro init h h0
    simpa using ih (f init a) (fun b x hx hb => h b x (List.mem_cons_of_mem a hx) hb)
      (h init a (List.mem_cons_self a t) h0)

/-- A link accepted by `_should_follow_url` matches no exclusion pattern. -/
lemma rShouldFollow_no_pattern {S : RSettings} {base url : String}
    (h : rShouldFollow S base url = true) :
    S.exclude_url_patterns.any (fun p => strContains url p) = false := by
  by_cases hp : S.exclude_url_patterns.any (fun p => strContains url p) = true
  · simp [rShouldFollow, hp] at h
  · simpa using hp

/-- With a non-empty restriction list, a link accepted by
`_should_follow_url` has its domain in the list. -/
lemma rShouldFollow_domain_mem {S : RSettings} {base url : String}
    (hne : S.restrict_to_domains ≠ []) (h : rShouldFollow S base url = true) :
    get_domain url ∈ S.restrict_to_domains := by
  have hp := rShouldFollow_no_pattern h
  have hemp : S.restrict_to_domains.isEmpty = false := by
    simpa [List.isEmpty_iff] using hne
  simp [rShouldFollow, hp, hemp] at h
  exact h.2

/-- Invariant principle for `_crawl_recursive`: `P` is a state predicate,
`A` a URL precondition implied by `_should_follow_url`-acceptance. If
`P` survives visiting a failing URL and recording a successful one, then
it holds of the whole recursive crawl, at every fuel. -/
lemma rCrawlRec_inv (web : RWeb) (S : RSettings) (P : RState → Prop) (A : String → Prop)
    (hA : ∀ base l, rShouldFollow S base l = true → A l)
    (hfail : ∀ st url, P st → A url → rKey S url ∉ st.visited →
      st.pages_data.length < S.max_pages →
      P ⟨rKey S url :: st.visited, st.pages_data⟩)
    (hrec : ∀ st url pg, web url = some pg → P st → A url → rKey S url ∉ st.visited →
      st.pages_data.length < S.max_pages →
      P ⟨rKey S url :: st.visited,
         st.pages_data ++ [⟨url, pg.title, pg.description, pg.content⟩]⟩) :
    ∀ fuel st url depth, P st → A url → P (rCrawlRec web S fuel st url depth) := by
  intro fuel
  induction fuel with
  | zero => intro st url depth hP _; simpa [rCrawlRec] using hP
  | succ f ih =>
    intro st url depth hP hAu
    rw [rCrawlRec]
    by_cases h1 : depth > S.max_depth
    · simpa [h1] using hP
    · by_cases h2 : st.pages_data.length ≥ S.max_pages
      · simpa [h1, h2] using hP
      · have h2' : st.pages_data.length < S.max_pages := Nat.lt_of_not_le h2
        by_cases h3 : rKey S url ∈ st.visited
        · simpa [h1, h2, h3] using hP
        · cases hw : web url with
          | none =>
            simpa [h1, h2, h3, hw] using hfail st url hP hAu h3 h2'
          | some pg =>
            have hP2 : P ⟨rKey S url :: st.visited,
                st.pages_data ++ [⟨url, pg.title, pg.description, pg.content⟩]⟩ :=
              hrec st url pg hw hP hAu h3 h2'
            by_cases h4 : depth < S.max_depth ∧ st.pages_data.length + 1 < S.max_pages
            · simp [h1, h2, h3, hw, h4]
              refine foldl_preserve P _ _ _ ?_ hP2
              intro b a ha hPb
              by_cases hb : b.pages_data.length < S.max_pages
              · have haf : rShouldFollow S url a = true := by
                  have := List.of_mem_filter ha
                  simpa using this
                simpa [hb] using ih b a (depth + 1) hPb (hA url a haf)
              · simpa [hb] using hPb
            · simpa [h1, h2, h3, hw, h4] using hP2

/-! ## Helper lemmas: browser pool -/

/-- Reusing a pooled instance does not change the pool's length. -/
lemma markFirstAvailable_length {now : Nat} :
    ∀ {l l' : List BrowserInstance} {b : BrowserInstance},
      markFirstAvailable now l = some (l', b) → l'.length = l.length := by
  intro l
  induction l with
  | nil => intro l' b h; simp [markFirstAvailable] at h
  | cons i t ih =>
    intro l' b h
    by_cases hi : i.in_use = true
    · simp [markFirstAvailable, hi] at h
      rcases ht : markFirstAvailable now t with _ | ⟨t', b'⟩
      · simp [ht] at h
      · simp [ht] at h
        rw [← h.1]
        simp [ih ht]
    · have hi' : i.in_use = false := by simpa using hi
      simp [markFirstAvailable, hi'] at h
      rcases h with ⟨rfl, rfl⟩
      simp


/-- If every pooled instance is busy, the scan finds nothing. -/
lemma markFirstAvailable_none (now : Nat) :
    ∀ {l : List BrowserInstance}, (∀ i ∈ l, i.in_use = true) →
      markFirstAvailable now l = none := by
  intro l
  induction l with
  | nil => intro _; simp [markFirstAvailable]
  | cons i t ih =>
    intro h
    have hi : i.in_use = true := h i (List.mem_cons_self i t)
    have ht := ih (fun j hj => h j (List.mem_cons_of_mem i hj))
    simp [markFirstAvailable, hi, ht]

/-- Erasing a batch of elements never lengthens a list. -/
lemma foldl_erase_length_le {α : Type _} [BEq α] :
    ∀ (rs l : List α), (rs.foldl (fun acc a => acc.erase a) l).length ≤ l.length := by
  intro rs
  induction rs with
  | nil => intro l; simp
  | cons a t ih =>
    intro l
    calc (List.foldl (fun acc x => acc.erase x) (l.erase a) t).length
        ≤ (l.erase a).length := ih (l.erase a)
      _ ≤ l.length := List.length_erase_le a l

/-- Erasing elements that all differ from the head leaves the head. -/
lemma foldl_erase_cons {α : Type _} [DecidableEq α] (a : α) :
    ∀ (rs t : List α), (∀ x ∈ rs, x ≠ a) →
      rs.foldl (fun acc x => acc.erase x) (a :: t) =
        a :: rs.foldl (fun acc x => acc.erase x) t := by
  intro rs
  induction rs with
  | nil => intro t _; simp
  | cons r rt ih =>
    intro t h
    have hr : r ≠ a := h r (List.mem_cons_self r rt)
    have : (a :: t).erase r = a :: t.erase r := by
      apply List.erase_cons_tail
      simpa using hr.symm
    simp only [List.foldl_cons, this]
    exact ih (t.erase r) (fun x hx => h x (List.mem_cons_of_mem r hx))

/-- On a duplicate-free list, Python's
`for x in l.filter(p): l.remove(x)` is exactly `filter (not ∘ p)`. -/
lemma foldl_erase_filter {α : Type _} [DecidableEq α] :
    ∀ (l : List α) (p : α → Bool), l.Nodup →
      (l.filter p).foldl (fun acc a => acc.erase a) l = l.filter (fun a => !p a) := by
  intro l
  induction l with
  | nil => intro p _; simp
  | cons a t ih =>
    intro p hnd
    have ha : a ∉ t := (List.nodup_cons.mp hnd).1
    have hnd' : t.Nodup := (List.nodup_cons.mp hnd).2
    by_cases hp : p a = true
    · have h1 : (a :: t).filter p = a :: t.filter p := by simp [hp]
      have h2 : (a :: t).erase a = t := List.erase_cons_head a t
      have h3 : (a :: t).filter (fun x => !p x) = t.filter (fun x => !p x) := by
        simp [hp]
      rw [h1, List.foldl_cons, h2, h3]
      exact ih p hnd'
    · have hp' : p a = false := by simpa using hp
      have h1 : (a :: t).filter p = t.filter p := by simp [hp']
      have h3 : (a :: t).filter (fun x => !p x) = a :: t.filter (fun x => !p x) := by
        simp [hp']
      rw [h1, h3, foldl_erase_cons a (t.filter p) t]
      · rw [ih p hnd']
      · intro x hx
        have : x ∈ t := List.mem_of_mem_filter hx
        exact fun he => ha (he ▸ this)

/-! ## Claims: browser pool -/

/-- C7: under every sequence of borrow/release/sweep operations the pool
never exceeds the configured capacity; a borrow against a full pool with
every instance busy hands out an in-use instance while leaving the pool
untouched (the temporary instance is never appended); and releasing any
handle — in particular a temporary one — never changes the pool's size. -/
theorem pool_capacity_invariant (S : PoolSettings) :
    (∀ ops : List PoolOp, (runPool S poolInit ops).pool.length ≤ S.BROWSER_POOL_SIZE) ∧
    (∀ (st : PoolState) (now : Nat),
      st.pool.length = S.BROWSER_POOL_SIZE → (∀ i ∈ st.pool, i.in_use = true) →
      (get_browser_acquire S st now).1.pool = st.pool ∧
      (get_browser_acquire S st now).2.in_use = true) ∧
    (∀ (st : PoolState) (driverId now : Nat),
      (release_browser st driverId now).pool.length = st.pool.length) := by
  refine ⟨?_, ?_, ?_⟩
  · intro ops
    rw [runPool]
    refine foldl_preserve (fun s => s.pool.length ≤ S.BROWSER_POOL_SIZE)
      (poolStep S) ops poolInit ?_ (by simp [poolInit])
    intro st op _ h
    cases op with
    | borrowOp now =>
      simp only [poolStep]
      rcases hm : markFirstAvailable now st.pool with _ | ⟨pool', b⟩
      · by_cases hlen : st.pool.length < S.BROWSER_POOL_SIZE
        · simp [get_browser_acquire, hm, hlen]
          omega
        · simpa [get_browser_acquire, hm, hlen] using h
      · simp only [get_browser_acquire, hm]
        rw [markFirstAvailable_length hm]
        exact h
    | releaseOp driverId now =>
      simpa [poolStep, release_browser] using h
    | sweepOp now =>
      simp only [poolStep]
      exact le_trans (foldl_erase_length_le _ _) h
  · intro st now hlen hbusy
    have hm := markFirstAvailable_none now hbusy
    have hnl : ¬ st.pool.length < S.BROWSER_POOL_SIZE := by omega
    constructor <;> simp [get_browser_acquire, hm, hnl]
  · intro st driverId now
    simp [release_browser]

/-- C7 witness: concrete instantiation of all three parts. -/
theorem pool_capacity_invariant_witness :
    (runPool ⟨2, 60⟩ poolInit
        [.borrowOp 0, .borrowOp 1, .borrowOp 2, .releaseOp 0 3, .sweepOp 4]).pool.length ≤ 2 ∧
    ((get_browser_acquire ⟨2, 60⟩ ⟨[⟨0, 0, true⟩, ⟨1, 0, true⟩], [], 2⟩ 5).1.pool =
        [⟨0, 0, true⟩, ⟨1, 0, true⟩] ∧
      (get_browser_acquire ⟨2, 60⟩ ⟨[⟨0, 0, true⟩, ⟨1, 0, true⟩], [], 2⟩ 5).2.in_use = true) ∧
    (release_browser ⟨[⟨0, 0, true⟩], [], 1⟩ 7 9).pool.length =
      ([⟨0, 0, true⟩] : List BrowserInstance).length :=
  ⟨(pool_capacity_invariant ⟨2, 60⟩).1 _,
   (pool_capacity_invariant ⟨2, 60⟩).2.1 ⟨[⟨0, 0, true⟩, ⟨1, 0, true⟩], [], 2⟩ 5
     (by decide) (by decide),
   (pool_capacity_invariant ⟨2, 60⟩).2.2 ⟨[⟨0, 0, true⟩], [], 1⟩ 7 9⟩

/-- C6 (amended): releasing a pooled instance marks it available and
refreshes `last_used`; releasing a handle that is not in the pool (a
temporary instance) leaves the whole pool state — including the set of
quit drivers — unchanged: the temporary browser is dropped without being
closed. -/
theorem release_contract :
    (∀ (st : PoolState) (driverId now : Nat) (i : BrowserInstance),
      i ∈ (release_browser st driverId now).pool → i.driver = driverId →
      i.in_use = false ∧ i.last_used = now) ∧
    (∀ (st : PoolState) (driverId now : Nat),
      driverId ∉ st.pool.map (fun i => i.driver) →
      release_browser st driverId now = st) := by
  constructor
  · intro st driverId now i hi hd
    rcases List.mem_map.mp hi with ⟨j, hj, hfj⟩
    by_cases hjd : j.driver = driverId
    · rw [if_pos hjd] at hfj
      rw [← hfj]
      exact ⟨rfl, rfl⟩
    · rw [if_neg hjd] at hfj
      rw [← hfj] at hd
      exact absurd hd hjd
  · intro st driverId now hnd
    have hmap : st.pool.map (fun i =>
        if i.driver = driverId then { i with in_use := false, last_used := now } else i) =
        st.pool := by
      have hid : ∀ i ∈ st.pool, (if i.driver = driverId then
          ({ i with in_use := false, last_used := now } : BrowserInstance) else i) = i := by
        intro i hi
        have : i.driver ≠ driverId := by
          intro he
          exact hnd (he ▸ List.mem_map_of_mem (fun j => j.driver) hi)
        rw [if_neg this]
      calc st.pool.map _ = st.pool.map id := List.map_congr_left hid
        _ = st.pool := List.map_id st.pool
    show ({ st with pool := st.pool.map _ } : PoolState) = st
    rw [hmap]

/-- C6 witness: both parts at concrete states: releasing pooled driver 5
at t=9 marks it available with `last_used = 9`; releasing the unpooled
driver 7 changes nothing. -/
theorem release_contract_witness :
    ((⟨5, 9, false⟩ : BrowserInstance).in_use = false ∧
      (⟨5, 9, false⟩ : BrowserInstance).last_used = 9) ∧
    release_browser ⟨[⟨0, 0, true⟩], [], 1⟩ 7 9 = ⟨[⟨0, 0, true⟩], [], 1⟩ :=
  ⟨release_contract.1 ⟨[⟨5, 0, true⟩], [], 6⟩ 5 9 ⟨5, 9, false⟩ (by decide) rfl,
   release_contract.2 ⟨[⟨0, 0, true⟩], [], 1⟩ 7 9 (by decide)⟩

/-- C6 counterexample: capacity-1 pool; borrow twice (the second borrow
returns temporary instance 1), release the temporary instance. Its
driver handle 1 is never quit (`closed = []`) and it is not in the pool
— the release contract's "closes its browser handle" clause is false on
the code. -/
theorem release_temp_not_closed :
    poolTrace2.2.driver = 1 ∧
    poolTrace2.1.pool.map (fun i => i.driver) = [0] ∧
    poolTrace3.pool.map (fun i => i.driver) = [0] ∧
    poolTrace3.closed = [] := by decide

/-- C10: one eviction sweep at time `now` removes exactly the pooled
instances that are both free and idle past the timeout, quits exactly
those instances' drivers, and never removes an instance that is in use
(assuming distinct driver handles, which creation guarantees). -/
theorem cleanup_sweep_spec (S : PoolSettings) (st : PoolState) (now : Nat)
    (hnd : (st.pool.map (fun i => i.driver)).Nodup) :
    (cleanup_sweep S st now).pool = st.pool.filter (fun i => !evictable S now i) ∧
    (cleanup_sweep S st now).closed =
      st.closed ++ (st.pool.filter (evictable S now)).map (fun i => i.driver) ∧
    (∀ i ∈ st.pool, i.in_use = true → i ∈ (cleanup_sweep S st now).pool) := by
  have hpool : (cleanup_sweep S st now).pool =
      st.pool.filter (fun i => !evictable S now i) := by
    show (st.pool.filter (evictable S now)).foldl (fun p i => p.erase i) st.pool = _
    exact foldl_erase_filter st.pool (evictable S now) (List.Nodup.of_map _ hnd)
  refine ⟨hpool, rfl, ?_⟩
  intro i hi hu
  rw [hpool]
  refine List.mem_filter.mpr ⟨hi, ?_⟩
  simp [evictable, hu]

/-- C10 witness: a sweep at t=100 with timeout 60 over one stale free
instance (idle since t=0) and one busy instance (last used t=99). -/
theorem cleanup_sweep_spec_witness :
    (cleanup_sweep ⟨3, 60⟩ ⟨[⟨0, 0, false⟩, ⟨1, 99, true⟩], [], 2⟩ 100).pool =
      ([⟨0, 0, false⟩, ⟨1, 99, true⟩] : List BrowserInstance).filter
        (fun i => !evictable ⟨3, 60⟩ 100 i) ∧
    (cleanup_sweep ⟨3, 60⟩ ⟨[⟨0, 0, false⟩, ⟨1, 99, true⟩], [], 2⟩ 100).closed =
      [] ++ (([⟨0, 0, false⟩, ⟨1, 99, true⟩] : List BrowserInstance).filter
        (evictable ⟨3, 60⟩ 100)).map (fun i => i.driver) ∧
    (∀ i ∈ ([⟨0, 0, false⟩, ⟨1, 99, true⟩] : List BrowserInstance), i.in_use = true →
      i ∈ (cleanup_sweep ⟨3, 60⟩ ⟨[⟨0, 0, false⟩, ⟨1, 99, true⟩], [], 2⟩ 100).pool) :=
  cleanup_sweep_spec ⟨3, 60⟩ ⟨[⟨0, 0, false⟩, ⟨1, 99, true⟩], [], 2⟩ 100 (by decide)

/-! ## Claims: crawl engines -/

/-- C1 (amended): the recursive engine obeys the global page cap — from
any intermediate state within the cap, it stays within the cap (so
`len(pages_data) ≤ max_pages` at every point and on return). The
queue-based engine enforces no such global cap (see its counterexample). -/
theorem rcrawl_page_cap :
    (∀ (web : RWeb) (S : RSettings) (start : String),
      (rCrawl web S start).length ≤ S.max_pages) ∧
    (∀ (web : RWeb) (S : RSettings) (fuel : Nat) (st : RState) (url : String) (depth : Nat),
      st.pages_data.length ≤ S.max_pages →
      (rCrawlRec web S fuel st url depth).pages_data.length ≤ S.max_pages) := by
  have main : ∀ (web : RWeb) (S : RSettings) (fuel : Nat) (st : RState)
      (url : String) (depth : Nat),
      st.pages_data.length ≤ S.max_pages →
      (rCrawlRec web S fuel st url depth).pages_data.length ≤ S.max_pages := by
    intro web S fuel st url depth h
    refine rCrawlRec_inv web S (fun s => s.pages_data.length ≤ S.max_pages) (fun _ => True)
      (fun _ _ _ => trivial) ?_ ?_ fuel st url depth h trivial
    · intro st' url' h' _ _ _
      simpa using h'
    · intro st' url' pg _ h' _ _ hlt
      simp only [List.length_append, List.length_singleton]
      omega
  exact ⟨fun web S start => main web S _ _ _ _ (by simp), main⟩

/-- C1 witness: the cap invariant applied to a concrete crawl state. -/
theorem rcrawl_page_cap_witness :
    (⟨[], []⟩ : RState).pages_data.length ≤ SC5.max_pages ∧
    (rCrawlRec webC5 SC5 4 ⟨[], []⟩ "http://s/" 1).pages_data.length ≤ SC5.max_pages :=
  ⟨by decide, rcrawl_page_cap.2 webC5 SC5 4 ⟨[], []⟩ "http://s/" 1 (by decide)⟩

/-- C1 counterexample: the queue-based engine run as `app_simple.py`
wires it — a request with total budget `max_pages = 1` becomes
`max_pages_per_domain = 1` — with `follow_external_links = true` on a
site whose start page links to one external page, returns 2 records:
`len(results) ≤ policy.max_pages` is violated. -/
theorem qcrawl_exceeds_global_max_pages :
    (qCrawl webC1 reSub SC1 10 "http://a/").length = 2 ∧
    ¬ (qCrawl webC1 reSub SC1 10 "http://a/").length ≤ 1 := by decide

/-- C2 (amended): in the queue-based engine (the cited code) the dedup
key is the exact URL string — the result list never repeats a raw URL;
query-stripped canonical dedup holds in the recursive engine, whose
visited set stores normalized URLs. -/
theorem crawl_dedup_keys :
    (∀ (web : QWeb) (reS : String → String → Bool) (S : QSettings) (fuel : Nat)
      (start : String),
      ((qCrawl web reS S fuel start).map PageRecord.url).Nodup) ∧
    (∀ (web : RWeb) (S : RSettings) (start : String),
      S.ignore_query_strings = true →
      ((rCrawl web S start).map (fun p => normalize_url p.url)).Nodup) := by
  constructor
  · intro web reS S fuel start
    have h := qLoop_inv web reS S
      (fun s => (s.results.map PageRecord.url).Nodup ∧ ∀ r ∈ s.results, r.url ∈ s.visited)
      (by
        rintro st u d rest hq ⟨hnd, hvis⟩
        rcases qIter_spec web reS S st u d rest with
          ⟨vis, ppd, hv, he⟩ | ⟨pg, ppd, ls, hw, hnv, hd, he⟩
        · rw [he]
          refine ⟨hnd, ?_⟩
          intro r hr
          rcases hv with rfl | rfl
          · exact hvis r hr
          · exact List.mem_cons_of_mem _ (hvis r hr)
        · rw [he]
          constructor
          · rw [List.map_append]
            refine List.nodup_append.mpr ⟨hnd, by simp, ?_⟩
            intro x hx hx1
            have hxu : x = u := by simpa using hx1
            rcases List.mem_map.mp hx with ⟨r, hr, rfl⟩
            exact hnv (hxu ▸ hvis r hr)
          · intro r hr
            rcases List.mem_append.mp hr with hr | hr
            · exact List.mem_cons_of_mem _ (hvis r hr)
            · have hru : r = ⟨u, pg.title, pg.description, pg.content, pg.links.length,
                  pg.images_count, pg.forms_count, pg.scripts_count, d, get_domain u⟩ := by
                simpa using hr
              rw [hru]
              exact List.mem_cons_self _ _)
      fuel ⟨[], [(start, 0)], [], []⟩ ⟨by simp, by simp⟩
    exact h.1
  · intro web S start hignore
    have key : ∀ url, rKey S url = normalize_url url := fun url => by simp [rKey, hignore]
    refine (rCrawlRec_inv web S
      (fun s => ((s.pages_data.map (fun p => normalize_url p.url)).Nodup ∧
        ∀ p ∈ s.pages_data, normalize_url p.url ∈ s.visited))
      (fun _ => True) (fun _ _ _ => trivial) ?_ ?_
      (S.max_depth + 1) ⟨[], []⟩ start 1 ⟨by simp, by simp⟩ trivial).1
    · intro st url hP _ _ _
      exact ⟨hP.1, fun p hp => List.mem_cons_of_mem _ (hP.2 p hp)⟩
    · intro st url pg hw hP _ hnv _
      rw [key url] at hnv
      constructor
      · rw [List.map_append]
        refine List.nodup_append.mpr ⟨hP.1, by simp, ?_⟩
        intro x hx hx1
        have hxu : x = normalize_url url := by simpa using hx1
        rcases List.mem_map.mp hx with ⟨p, hp, rfl⟩
        exact hnv (hxu ▸ hP.2 p hp)
      · intro p hp
        rw [key url]
        rcases List.mem_append.mp hp with hp | hp
        · exact List.mem_cons_of_mem _ (hP.2 p hp)
        · have hpu : p = ⟨url, pg.title, pg.description, pg.content⟩ := by simpa using hp
          rw [hpu]
          exact List.mem_cons_self _ _

/-- C2 witness: canonical dedup instantiated on a concrete recursive
crawl with `ignore_query_strings` on. -/
theorem crawl_dedup_keys_witness :
    SC5.ignore_query_strings = true ∧
    ((rCrawl webC5 SC5 "http://s/").map (fun p => normalize_url p.url)).Nodup :=
  ⟨rfl, crawl_dedup_keys.2 webC5 SC5 "http://s/" rfl⟩

/-- C2 counterexample: with default settings (`ignore_query_strings =
true`) the queue-based crawl fetches `http://s/p?q=1` and
`http://s/p?q=2` — two result entries with the same canonical URL
`http://s/p` (the visited set stores raw URLs, and each link was
admitted before the other was fetched). -/
theorem qcrawl_duplicate_canonical_url :
    (qCrawl webC2 reSub SC2 10 "http://s/").map PageRecord.url =
      ["http://s/", "http://s/p?q=1", "http://s/p?q=2"] ∧
    normalize_url "http://s/p?q=1" = normalize_url "http://s/p?q=2" := by decide

/-- C3 (amended): in the recursive engine, when the restriction list is
the start URL's own domain (how `scrape_with_selenium` builds it for
`restrict_to_domain=true` with no explicit list), every record's domain
equals the start domain — for every combination of the remaining flags.
The queue-based engine guarantees this only while
`follow_external_links` is false (see the counterexample). -/
theorem rcrawl_domain_restriction (web : RWeb) (S : RSettings) (start : String)
    (hres : S.restrict_to_domains = [get_domain start]) :
    ∀ p ∈ rCrawl web S start, get_domain p.url = get_domain start := by
  have hne : S.restrict_to_domains ≠ [] := by rw [hres]; simp
  exact rCrawlRec_inv web S
    (fun s => ∀ p ∈ s.pages_data, get_domain p.url = get_domain start)
    (fun url => get_domain url = get_domain start)
    (fun base l hf => by
      have hm := rShouldFollow_domain_mem hne hf
      rw [hres] at hm
      simpa using hm)
    (fun st url hP _ _ _ => hP)
    (fun st url pg hw hP hA _ _ => by
      intro p hp
      rcases List.mem_append.mp hp with hp | hp
      · exact hP p hp
      · have hpu : p = ⟨url, pg.title, pg.description, pg.content⟩ := by simpa using hp
        rw [hpu]
        exact hA)
    (S.max_depth + 1) ⟨[], []⟩ start 1 (by simp) rfl

/-- C3 witness: the domain restriction on a concrete two-level crawl of
domain `s`. -/
theorem rcrawl_domain_restriction_witness :
    SC3.restrict_to_domains = [get_domain "http://s/"] ∧
    ∀ p ∈ rCrawl webC5 SC3 "http://s/", get_domain p.url = get_domain "http://s/" :=
  ⟨by decide, rcrawl_domain_restriction webC5 SC3 "http://s/" (by decide)⟩

/-- C3 counterexample: the queue-based engine with
`restrict_to_domains = ["example.com"]` (the wiring of
`restrict_to_domain = true` in `app_simple.py`) and
`follow_external_links = true` records a page on `other.com` — the
restriction rejection at `crawler.py` line 91 is skipped when external
following is on, so not every record's domain equals the start domain. -/
theorem qcrawl_foreign_domain_record :
    (qCrawl webC3x reSub SC3x 10 "http://example.com/").map PageRecord.domain =
      ["example.com", "other.com"] ∧
    ¬ (∀ p ∈ qCrawl webC3x reSub SC3x 10 "http://example.com/",
        p.domain = get_domain "http://example.com/") := by decide

/-- C4 (amended): with a non-empty `restrict_to_domains` list, the
queue-based evaluator rejects every absolute candidate whose domain
neither equals nor is a strict subdomain of an entry — provided
`follow_external_links` is false; when it is true the restriction check
is skipped and such URLs can be accepted (see the counterexample). -/
theorem should_follow_rejects_foreign (reS : String → String → Bool) (S : QSettings)
    (visited : List String) (ppd : List (String × Nat)) (base_url url : String)
    (hne : S.restrict_to_domains ≠ [])
    (hext : S.follow_external_links = false)
    (hdom : get_domain url ≠ "")
    (hfar : ∀ d ∈ S.restrict_to_domains,
      get_domain url ≠ d ∧ strEnds (get_domain url) ("." ++ d) = false) :
    should_follow_url reS S visited ppd base_url url = false := by
  by_cases hg : (url = "" || strStarts url "javascript:" || url = "#") = true
  · simp [should_follow_url, hg]
  · have hg' : (url = "" || strStarts url "javascript:" || url = "#") = false := by
      simpa using hg
    have hcont : get_domain url ∉ S.restrict_to_domains := fun hm => (hfar _ hm).1 rfl
    have hany : (S.restrict_to_domains.any
        (fun a => strEnds (get_domain url) ("." ++ a) || get_domain url = a)) = false := by
      simp only [List.any_eq_false]
      intro a ha
      simp [(hfar a ha).1, (hfar a ha).2]
    have hemp : S.restrict_to_domains.isEmpty = false := by
      simpa [List.isEmpty_iff] using hne
    simp [should_follow_url, hg', hdom, hcont, hany, hemp, hext]

/-- C4 witness: rejection of `other.com` against list `[example.com]`
with external following off. -/
theorem should_follow_rejects_foreign_witness :
    should_follow_url reSub SC4w [] [] "http://example.com/" "http://other.com/x" = false :=
  should_follow_rejects_foreign reSub SC4w [] [] "http://example.com/" "http://other.com/x"
    (by decide) rfl (by decide) (by decide)

/-- C4 counterexample: same foreign candidate, same non-empty list, but
`follow_external_links = true`: the evaluator returns `true`, refuting
"returns false … for every combination of the remaining policy flags". -/
theorem should_follow_accepts_foreign_when_external :
    should_follow_url reSub SC4 [] [] "http://example.com/" "http://other.com/x" = true := by
  decide

/-- C5 (amended): the queue-based engine produces results in BFS order —
recorded depths are non-decreasing, so every depth-`d` record precedes
every depth-`d+1` record. The recursive engine does not (see the
counterexample). -/
theorem qcrawl_bfs_order (web : QWeb) (reS : String → String → Bool) (S : QSettings)
    (fuel : Nat) (start : String) :
    List.Sorted (· ≤ ·) ((qCrawl web reS S fuel start).map PageRecord.depth) :=
  (qcrawl_bfs_inv web reS S fuel ⟨[], [(start, 0)], [], []⟩
    ⟨by simp, by simp, by simp, by simp⟩).2.1

/-- C5 counterexample: the recursive engine fetches, in order, the start
page (depth 1), `a` (depth 2), `c` (depth 3), `b` (depth 2) — a depth-2
record appears after a depth-3 record, so results are not in BFS order. -/
theorem rcrawl_not_bfs_order :
    (rCrawl webC5 SC5 "http://s/").map (fun p => p.url) =
      ["http://s/", "http://s/a", "http://s/c", "http://s/b"] ∧
    ¬ List.Sorted (· ≤ ·) ((rCrawl webC5 SC5 "http://s/").map (fun p => prodDepthC5 p.url)) := by
  decide

/-- C8 (amended): a URL matching a configured exclusion pattern is
rejected by the queue-based evaluator whenever its domain is non-empty
(a domain-relative URL is accepted before the pattern check — see the
counterexample), is always rejected by the recursive evaluator, and in
the recursive engine a matching URL never appears in results except as
the start URL itself (which is fetched without evaluation). -/
theorem exclusion_patterns_reject :
    (∀ (reS : String → String → Bool) (S : QSettings) (visited : List String)
      (ppd : List (String × Nat)) (base_url url : String),
      get_domain url ≠ "" →
      S.exclude_url_patterns.any (fun p => reS p url) = true →
      should_follow_url reS S visited ppd base_url url = false) ∧
    (∀ (S : RSettings) (base_url url : String),
      S.exclude_url_patterns.any (fun p => strContains url p) = true →
      rShouldFollow S base_url url = false) ∧
    (∀ (web : RWeb) (S : RSettings) (start : String),
      ∀ p ∈ rCrawl web S start, p.url = start ∨
        S.exclude_url_patterns.any (fun pat => strContains p.url pat) = false) := by
  refine ⟨?_, ?_, ?_⟩
  · intro reS S visited ppd base_url url hdom hany
    by_cases hg : (url = "" || strStarts url "javascript:" || url = "#") = true
    · simp [should_follow_url, hg]
    · have hg' : (url = "" || strStarts url "javascript:" || url = "#") = false := by
        simpa using hg
      simp [should_follow_url, hg', hdom, hany]
  · intro S base_url url hany
    simp [rShouldFollow, hany]
  · intro web S start
    exact rCrawlRec_inv web S
      (fun s => ∀ p ∈ s.pages_data, p.url = start ∨
        S.exclude_url_patterns.any (fun pat => strContains p.url pat) = false)
      (fun url => url = start ∨
        S.exclude_url_patterns.any (fun pat => strContains url pat) = false)
      (fun base l hf => Or.inr (rShouldFollow_no_pattern hf))
      (fun st url hP _ _ _ => hP)
      (fun st url pg hw hP hA _ _ => by
        intro p hp
        rcases List.mem_append.mp hp with hp | hp
        · exact hP p hp
        · have hpu : p = ⟨url, pg.title, pg.description, pg.content⟩ := by simpa using hp
          rw [hpu]
          exact hA)
      (S.max_depth + 1) ⟨[], []⟩ start 1 (by simp) (Or.inl rfl)

/-- C8 witness: an absolute URL matching pattern `admin` is rejected. -/
theorem exclusion_patterns_reject_witness :
    get_domain "http://x/admin/login" ≠ "" ∧
    SC8.exclude_url_patterns.any (fun p => reSub p "http://x/admin/login") = true ∧
    should_follow_url reSub SC8 [] [] "http://x/" "http://x/admin/login" = false :=
  ⟨by decide, by decide,
   exclusion_patterns_reject.1 reSub SC8 [] [] "http://x/" "http://x/admin/login"
     (by decide) (by decide)⟩

/-- C8 counterexample: the domain-relative URL `/admin` matches the
exclusion pattern `admin`, yet the queue-based evaluator returns `true`
— the empty-domain early accept precedes the pattern check, refuting
"returns false … regardless of the candidate's domain". -/
theorem relative_url_escapes_exclusion :
    reSub "admin" "/admin" = true ∧
    should_follow_url reSub SC8 [] [] "http://example.com/" "/admin" = true := by decide

/-- C9: a URL whose load or extraction fails is simply consumed: one loop
step pops it, leaves the results untouched (at most marking it visited
and initializing its domain counter), and continues with the remaining
queue; and every record in any crawl's results comes from a URL whose
load succeeded — a failing URL never contributes a record. -/
theorem page_failure_skips_url (web : QWeb) (reS : String → String → Bool) (S : QSettings) :
    (∀ (u : String), web u = none →
      ∀ (fuel d : Nat) (vis : List String) (rest : List (String × Nat))
        (res : List PageRecord) (ppd : List (String × Nat)),
        ∃ (vis' : List String) (ppd' : List (String × Nat)),
          qCrawlLoop web reS S (fuel + 1) ⟨vis, (u, d) :: rest, res, ppd⟩ =
            qCrawlLoop web reS S fuel ⟨vis', rest, res, ppd'⟩) ∧
    (∀ (fuel : Nat) (st : QState) (p : PageRecord),
      p ∈ (qCrawlLoop web reS S fuel st).results →
      p ∈ st.results ∨ ∃ pg, web p.url = some pg) := by
  constructor
  · intro u hw fuel d vis rest res ppd
    have hstep : qCrawlLoop web reS S (fuel + 1) ⟨vis, (u, d) :: rest, res, ppd⟩ =
        qCrawlLoop web reS S fuel (qIter web reS S ⟨vis, (u, d) :: rest, res, ppd⟩ u d rest) := by
      simp [qCrawlLoop]
    rcases qIter_spec web reS S ⟨vis, (u, d) :: rest, res, ppd⟩ u d rest with
      ⟨vis', ppd', _, he⟩ | ⟨pg, _, _, hpg, _⟩
    · exact ⟨vis', ppd', by rw [hstep, he]⟩
    · rw [hw] at hpg
      cases hpg
  · intro fuel
    induction fuel with
    | zero =>
      intro st p hp
      exact Or.inl (by simpa [qCrawlLoop] using hp)
    | succ f ih =>
      intro st p hp
      rcases hq : st.queue with _ | ⟨⟨u, d⟩, rest⟩
      · have hid : qCrawlLoop web reS S (f + 1) st = st := by simp [qCrawlLoop, hq]
        rw [hid] at hp
        exact Or.inl hp
      · have hstep : qCrawlLoop web reS S (f + 1) st =
            qCrawlLoop web reS S f (qIter web reS S st u d rest) := by
          simp [qCrawlLoop, hq]
        rw [hstep] at hp
        rcases ih (qIter web reS S st u d rest) p hp with hmem | hex
        · rcases qIter_spec web reS S st u d rest with
            ⟨vis', ppd', _, he⟩ | ⟨pg, ppd', ls, hw, _, _, he⟩
          · rw [he] at hmem
            exact Or.inl hmem
          · rw [he] at hmem
            rcases List.mem_append.mp hmem with hmem | hmem
            · exact Or.inl hmem
            · refine Or.inr ⟨pg, ?_⟩
              have hpu : p = ⟨u, pg.title, pg.description, pg.content, pg.links.length,
                  pg.images_count, pg.forms_count, pg.scripts_count, d, get_domain u⟩ := by
                simpa using hmem
              rw [hpu]
              exact hw
        · exact Or.inr hex

/-- C9 witness: the failing URL `http://s/a` of `webC9` is consumed in
one step with no record added, the loop continuing on the empty rest. -/
theorem page_failure_skips_url_witness :
    webC9 "http://s/a" = none ∧
    ∃ (vis' : List String) (ppd' : List (String × Nat)),
      qCrawlLoop webC9 reSub SC9 3 ⟨[], [("http://s/a", 1)], [], []⟩ =
        qCrawlLoop webC9 reSub SC9 2 ⟨vis', [], [], ppd'⟩ :=
  ⟨rfl, (page_failure_skips_url webC9 reSub SC9).1 "http://s/a" rfl 2 1 [] [] [] []⟩

end Scrapper
